import Mathlib

/-!
Verification development for the chat-backend HTTP service
(`src/api/index.js`): a routing shim that stores text chunks as
embedding vectors in a vector store and answers questions by
retrieval-augmented generation.

The JavaScript module is shallowly embedded as pure Lean functions.
Every network round trip to a provider (OpenAI embeddings, OpenAI chat
completions, Pinecone index listing / creation / upsert / query) is
recorded in an explicit trace of `ProviderCall` values, and the outcome
of each provider call is supplied by an `Env` record, so a handler run
is a pure function of the environment, the module-level client state
and the request.
-/

/-- A JavaScript value as far as the handlers inspect one: the handlers
only ever test truthiness, test `typeof v === "string"`, and compare
with strict equality against a string. -/
inductive JVal where
  | undef
  | jstr (s : String)
  | jnum (n : Int)
  | jbool (b : Bool)
deriving DecidableEq

/-- JavaScript truthiness of a `JVal` (`!v` is the negation of this). -/
def JVal.truthy : JVal → Bool
  | .undef => false
  | .jstr s => s != ""
  | .jnum n => n != 0
  | .jbool b => b

/-- Whether `typeof v === "string"` holds. -/
def JVal.isString : JVal → Bool
  | .jstr _ => true
  | _ => false

/-- The underlying string of a `JVal`; only consulted on values already
known to satisfy `isString`. -/
def JVal.asString : JVal → String
  | .jstr s => s
  | _ => ""

/-- Truthiness of an optional string body field (`undefined` or a
string): missing and the empty string are falsy. -/
def truthyOptStr : Option String → Bool
  | none => false
  | some s => s != ""

/-- JavaScript `a || b` on environment variables read as strings:
falls back to the default when the variable is unset or empty. -/
def jsOrStr : Option String → String → String
  | none, d => d
  | some s, d => if s = "" then d else s

/-- `pat.isPrefixOf hay` lifted to a scan over every suffix of the
haystack; `includesAux pat hay = true` iff `pat` occurs contiguously in
`hay` (the semantics of JavaScript `String.prototype.includes`). -/
def includesAux (pat : List Char) : List Char → Bool
  | [] => pat.isEmpty
  | c :: rest => pat.isPrefixOf (c :: rest) || includesAux pat rest

/-- JavaScript `s.includes(pat)`: substring containment. -/
def jsIncludes (s pat : String) : Bool :=
  includesAux pat.data s.data

/-- JavaScript `s.substring(0, n)`: the first `n` characters. -/
def jsSubstring (s : String) (n : Nat) : String :=
  ⟨s.data.take n⟩

/-- `chunkId || Date.now().toString()`: the stored id is the provided
`chunkId` when truthy, else the decimal string of the clock value. -/
def ingestId (chunkId : Option String) (now : Nat) : String :=
  match chunkId with
  | some c => if c = "" then toString now else c
  | none => toString now

/-- `metadata` object stored alongside a vector (`{ text }`). -/
structure MatchMetadata where
  text : String
deriving DecidableEq

/-- One similarity match returned by the vector store query
(`{ id, score, metadata }`); the store returns matches sorted by
descending score. -/
structure SimMatch where
  id : String
  score : Rat
  metadata : MatchMetadata
deriving DecidableEq

/-- One provider network call, in the order the handler issues them. -/
inductive ProviderCall where
  | listIndexes
  | createIndex (name : String)
  | embed (model : String) (input : String)
  | upsert (id : String) (values : List Rat) (text : String)
  | query (topK : Nat) (includeMetadata : Bool)
  | chat (model : String) (system : String) (user : String)
         (temperature : Rat) (maxTokens : Nat)
deriving DecidableEq

/-- Whether a call belongs to client initialization (collection listing
or creation) rather than to request processing proper. -/
def ProviderCall.isInitCall : ProviderCall → Bool
  | .listIndexes => true
  | .createIndex _ => true
  | _ => false

/-- Outcomes of every provider call a single request may make, plus the
process environment variables the module reads and the current clock.
An `Except.error e` carries the thrown error message (`error.message`).
`embedResult input` is the vector `response.data[0].embedding` for that
input; `chatResult system user` is the generated text
`completion.choices[0].message.content`. -/
structure Env where
  indexList : Except String (List String)
  createIndexResult : Except String Unit
  embedResult : String → Except String (List Rat)
  upsertResult : Except String Unit
  queryResult : Except String (List SimMatch)
  chatResult : String → String → Except String String
  now : Nat
  openaiModelVar : Option String
  indexNameVar : Option String
  frontendUrlVar : Option String

/-- `process.env.PINECONE_INDEX_NAME || "text-embeddings"`. -/
def indexName (env : Env) : String :=
  jsOrStr env.indexNameVar "text-embeddings"

/-- `process.env.OPENAI_MODEL || "gpt-3.5-turbo"`. -/
def chatModel (env : Env) : String :=
  jsOrStr env.openaiModelVar "gpt-3.5-turbo"

/-- The module-level mutable client state: whether `openai` has been
constructed and whether `pineconeInitialized` has been set. -/
structure ClientState where
  openaiSet : Bool
  pineconeInitialized : Bool
deriving DecidableEq

/-- Result of `initClients`: the value or thrown error, the client
state after the call, and the provider calls made. -/
structure InitResult where
  res : Except String Unit
  state : ClientState
  calls : List ProviderCall

/-- Embedding of `initClients` (`src/api/index.js` lines 9 to 51).
Constructs the OpenAI client if absent; when `pineconeInitialized` is
unset, lists indexes, creates the index when its name is absent from
the listing, and only then marks initialization complete.  A listing or
creation failure is rethrown with the state flag still unset.  (The
fixed 30 second wait after creation is a pure delay, not a provider
call, and is not modelled.) -/
def initClients (env : Env) (st : ClientState) : InitResult :=
  let st1 : ClientState := { st with openaiSet := true }
  if st1.pineconeInitialized then
    { res := .ok (), state := st1, calls := [] }
  else
    match env.indexList with
    | .error e => { res := .error e, state := st1, calls := [.listIndexes] }
    | .ok names =>
      if names.contains (indexName env) then
        { res := .ok (), state := { st1 with pineconeInitialized := true },
          calls := [.listIndexes] }
      else
        match env.createIndexResult with
        | .error e =>
          { res := .error e, state := st1,
            calls := [.listIndexes, .createIndex (indexName env)] }
        | .ok _ =>
          { res := .ok (), state := { st1 with pineconeInitialized := true },
            calls := [.listIndexes, .createIndex (indexName env)] }

/-- The response headers `setCorsHeaders` writes. -/
structure Headers where
  allowOrigin : String
  allowCredentials : String
  allowMethods : String
  allowHeaders : String
deriving DecidableEq

/-- Embedding of `setCorsHeaders` (`src/api/index.js` lines 54 to 78),
as a function of the configured frontend origin and the request Origin
header. -/
def setCorsHeaders (env : Env) (origin : Option String) : Headers :=
  let allowedOrigin := jsOrStr env.frontendUrlVar "*"
  let allowOrigin :=
    match origin with
    | some o =>
      if o != "" &&
          (jsIncludes o "localhost" || jsIncludes o "127.0.0.1" ||
            allowedOrigin == "*") then
        o
      else if allowedOrigin != "*" then allowedOrigin
      else "*"
    | none =>
      if allowedOrigin != "*" then allowedOrigin else "*"
  { allowOrigin := allowOrigin
    allowCredentials := "true"
    allowMethods := "GET,OPTIONS,PATCH,DELETE,POST,PUT"
    allowHeaders := "X-CSRF-Token, X-Requested-With, Accept, Accept-Version, Content-Length, Content-MD5, Content-Type, Date, X-Api-Version, Authorization" }

/-- The JSON body shapes this module can send, one constructor per
object literal in the source. -/
inductive RespBody where
  /-- `res.end()` with no body (the OPTIONS preflight path). -/
  | empty
  /-- `{ status: "ok" }`. -/
  | health
  /-- `{ error: msg }`. -/
  | errorMsg (msg : String)
  /-- `{ error: msg, details: details }`. -/
  | errorDetails (msg details : String)
  /-- `{ success: true, id, text }`. -/
  | embedSuccess (id : String) (text : String)
  /-- `{ question, answer }`. -/
  | askSuccess (question answer : String)
  /-- `{ error: "No relevant context found", question }`. -/
  | notFound (question : String)
deriving DecidableEq

/-- An HTTP response: status code and JSON body. -/
structure Resp where
  status : Nat
  body : RespBody
deriving DecidableEq

/-- Result of one request handler: the response, the client state after
the run, and the provider calls made, in order. -/
structure HResult where
  resp : Resp
  state : ClientState
  calls : List ProviderCall
deriving DecidableEq

/-- Builds an `HResult` from a status code, a body, the state and the
call trace. -/
def mkHR (status : Nat) (body : RespBody) (st : ClientState)
    (calls : List ProviderCall) : HResult :=
  { resp := { status := status, body := body }, state := st, calls := calls }

/-- The fixed refusal sentence of the strict prompt variant. -/
def refusalSentence : String := "I\x27m sorry, I don\x27t know."

/-- Strict system prompt text before the refusal sentence (the source
bytes include a mojibake em dash, reproduced verbatim). -/
def strictPre : String := "You are a precise, context-driven assistant. \n            - You must answer using only the provided \"Context\" blockâ€”do not draw on any outside knowledge. \n            - If the user\x27s question uses different wording than the context, mentally paraphrase or expand synonyms to find the matching passage. \n            - If the answer cannot be found in the context, reply: \""

/-- Strict system prompt text between the refusal sentence and the
interpolated context. -/
def strictPost : String := "\" \n            - Keep your answer as concise as possible.\n            \n            Context: "

/-- The strict-variant system message
(`src/api/index.js` lines 182 to 188): the template literal with the
exact-match text interpolated after `Context: `. -/
def strictSystem (context : String) : String :=
  strictPre ++ (refusalSentence ++ (strictPost ++ context))

/-- Lenient system prompt text before the interpolated context. -/
def lenientTemplate : String := "Answer the question based on the provided context. Keep your answer concise.\n              \n              Context: "

/-- The lenient-variant system message
(`src/api/index.js` lines 213 to 215). -/
def lenientSystem (context : String) : String :=
  lenientTemplate ++ context

/-- Embedding of `handleEmbeddings` (`src/api/index.js` lines 86 to
128).  Initializes clients, validates `text`, requests an embedding,
computes the id (`chunkId || Date.now().toString()`), upserts, and
returns 201 with the id and a 100 character preview; any thrown error
is caught and returned as 500 with the error message. -/
def handleEmbeddings (env : Env) (st : ClientState)
    (text chunkId : Option String) : HResult :=
  let init := initClients env st
  match init.res with
  | .error e => mkHR 500 (.errorMsg e) init.state init.calls
  | .ok _ =>
    match text with
    | none => mkHR 400 (.errorMsg "Text content is required") init.state init.calls
    | some s =>
      if s = "" then
        mkHR 400 (.errorMsg "Text content is required") init.state init.calls
      else
        match env.embedResult s with
        | .error e =>
          mkHR 500 (.errorMsg e) init.state
            (init.calls ++ [.embed "text-embedding-3-small" s])
        | .ok values =>
          let id := ingestId chunkId env.now
          match env.upsertResult with
          | .error e =>
            mkHR 500 (.errorMsg e) init.state
              (init.calls ++ [.embed "text-embedding-3-small" s, .upsert id values s])
          | .ok _ =>
            mkHR 201
              (.embedSuccess id (if s.length > 100 then jsSubstring s 100 ++ "..." else s))
              init.state
              (init.calls ++ [.embed "text-embedding-3-small" s, .upsert id values s])

/-- Embedding of `handleAsk` (`src/api/index.js` lines 131 to 245).
Initializes clients, validates `question` and `documentID`, embeds the
question, queries the top 5 matches with metadata, then: an exact id
match yields a strict-variant chat completion; otherwise a best match
scoring at least 0.5 yields a lenient-variant chat completion;
otherwise 404 with the question.  Any thrown error is caught and
returned as 500 with `details` carrying the message. -/
def handleAsk (env : Env) (st : ClientState)
    (question documentID : JVal) : HResult :=
  let init := initClients env st
  match init.res with
  | .error e =>
    mkHR 500 (.errorDetails "Failed to process question" e) init.state init.calls
  | .ok _ =>
    if !question.truthy || !question.isString then
      mkHR 400 (.errorMsg "Valid question string is required") init.state init.calls
    else if !documentID.truthy then
      mkHR 400 (.errorMsg "Document ID is required") init.state init.calls
    else
      let q := question.asString
      match env.embedResult q with
      | .error e =>
        mkHR 500 (.errorDetails "Failed to process question" e) init.state
          (init.calls ++ [.embed "text-embedding-3-small" q])
      | .ok _ =>
        let calls2 := init.calls ++ [.embed "text-embedding-3-small" q, .query 5 true]
        match env.queryResult with
        | .error e =>
          mkHR 500 (.errorDetails "Failed to process question" e) init.state calls2
        | .ok queryMatches =>
          match queryMatches with
          | [] => mkHR 404 (.notFound q) init.state calls2
          | best :: rest =>
            match (best :: rest).find? (fun m => decide (JVal.jstr m.id = documentID)) with
            | some exactMatch =>
              let sys := strictSystem exactMatch.metadata.text
              match env.chatResult sys q with
              | .error e =>
                mkHR 500 (.errorDetails "Failed to process question" e) init.state
                  (calls2 ++ [.chat (chatModel env) sys q (mkRat 7 10) 500])
              | .ok answer =>
                mkHR 200 (.askSuccess q answer) init.state
                  (calls2 ++ [.chat (chatModel env) sys q (mkRat 7 10) 500])
            | none =>
              if best.score ≥ mkRat 1 2 then
                let sys := lenientSystem best.metadata.text
                match env.chatResult sys q with
                | .error e =>
                  mkHR 500 (.errorDetails "Failed to process question" e) init.state
                    (calls2 ++ [.chat (chatModel env) sys q (mkRat 7 10) 500])
                | .ok answer =>
                  mkHR 200 (.askSuccess q answer) init.state
                    (calls2 ++ [.chat (chatModel env) sys q (mkRat 7 10) 500])
              else
                mkHR 404 (.notFound q) init.state calls2

/-- The `pathname` of a request URL for path-shaped URLs: everything up
to the first `?` or `#` (query string and fragment are not part of the
pathname). -/
def pathnameOf (url : String) : String :=
  ⟨url.data.takeWhile (fun c => c != '?' && c != '#')⟩

/-- `url.pathname.replace(/^\/api/, "") || "/"`: strip one leading
`/api`, and an empty result becomes `/`. -/
def normalizePath (url : String) : String :=
  let p := pathnameOf url
  let stripped : String :=
    if "/api".data.isPrefixOf p.data then ⟨p.data.drop 4⟩ else p
  if stripped = "" then "/" else stripped

/-- An incoming request as the handler consumes it: method, URL, the
Origin header, and the parsed JSON body fields each endpoint reads. -/
structure Request where
  method : String
  url : String
  origin : Option String
  text : Option String
  chunkId : Option String
  question : JVal
  documentID : JVal

/-- Result of the top-level handler: response, response headers, client
state after the run, and the provider calls made. -/
structure FullResult where
  resp : Resp
  headers : Headers
  state : ClientState
  calls : List ProviderCall
deriving DecidableEq

/-- Embedding of the default export `handler`
(`src/api/index.js` lines 248 to 285): sets CORS headers on every
response, short-circuits OPTIONS with an empty 200 before routing, then
routes by normalized path; `/` and `/health` answer without a method
check, `/embeddings` and `/ask` demand POST, anything else is 404. -/
def handler (env : Env) (st : ClientState) (req : Request) : FullResult :=
  let headers := setCorsHeaders env req.origin
  if req.method = "OPTIONS" then
    { resp := { status := 200, body := .empty },
      headers := headers, state := st, calls := [] }
  else
    let path := normalizePath req.url
    let r : HResult :=
      if path = "/" ∨ path = "/health" then
        { resp := { status := 200, body := .health }, state := st, calls := [] }
      else if path = "/embeddings" then
        if req.method ≠ "POST" then
          { resp := { status := 405, body := .errorMsg "Method not allowed" },
            state := st, calls := [] }
        else handleEmbeddings env st req.text req.chunkId
      else if path = "/ask" then
        if req.method ≠ "POST" then
          { resp := { status := 405, body := .errorMsg "Method not allowed" },
            state := st, calls := [] }
        else handleAsk env st req.question req.documentID
      else
        { resp := { status := 404, body := .errorMsg "Not found" },
          state := st, calls := [] }
    { resp := r.resp, headers := headers, state := r.state, calls := r.calls }

/-- A client state before any request has been processed. -/
def freshState : ClientState :=
  { openaiSet := false, pineconeInitialized := false }

/-- A provider environment in which every call succeeds, the index
already exists, and the similarity search returns one match whose id is
`doc1` with score 0.9. -/
def envFound : Env :=
  { indexList := .ok ["text-embeddings"]
    createIndexResult := .ok ()
    embedResult := fun _ => .ok [mkRat 1 1]
    upsertResult := .ok ()
    queryResult := .ok [{ id := "doc1", score := mkRat 9 10, metadata := { text := "The sky is blue." } }]
    chatResult := fun _ _ => .ok "Blue."
    now := 1700000000000
    openaiModelVar := none
    indexNameVar := none
    frontendUrlVar := none }

/-- Like `envFound` but the only match has a foreign id and score 0.3. -/
def envLowScore : Env :=
  { envFound with
    queryResult := .ok [{ id := "other", score := mkRat 3 10, metadata := { text := "Paris is in France." } }] }

/-- Like `envFound` but the only match has a foreign id and score 0.9. -/
def envBestMatch : Env :=
  { envFound with
    queryResult := .ok [{ id := "other", score := mkRat 9 10, metadata := { text := "Paris is in France." } }] }

/-- Like `envFound` but the similarity search returns no matches. -/
def envNoMatches : Env :=
  { envFound with queryResult := .ok [] }

/-- Like `envFound` but index listing fails. -/
def envInitFail : Env :=
  { envFound with indexList := .error "pinecone down" }

/-- The condition under which the answer flow ends in the NotFound
outcome: the search returned no matches, or no match carries the
requested document id and the top match scores below one half. -/
def notFoundCond (qms : List SimMatch) (documentID : JVal) : Prop :=
  qms = [] ∨
    ((∀ m ∈ qms, JVal.jstr m.id ≠ documentID) ∧
      ∃ best rest, qms = best :: rest ∧ best.score < mkRat 1 2)

lemma initClients_calls_are_init (env : Env) (st : ClientState) :
    ∀ c ∈ (initClients env st).calls, c.isInitCall = true := by
  intro c hc
  simp only [initClients] at hc
  by_cases h : st.pineconeInitialized = true
  · simp [h] at hc
  · rw [Bool.not_eq_true] at h
    cases henv : env.indexList with
    | error e =>
      simp [h, henv] at hc
      subst hc; rfl
    | ok names =>
      by_cases hn : indexName env ∈ names
      · simp [h, henv, hn] at hc
        subst hc; rfl
      · cases hcr : env.createIndexResult with
        | error e =>
          simp [h, henv, hn, hcr] at hc
          rcases hc with rfl | rfl <;> rfl
        | ok u =>
          simp [h, henv, hn, hcr] at hc
          rcases hc with rfl | rfl <;> rfl

lemma initClients_calls_ne_nil (env : Env) (st : ClientState)
    (h : st.pineconeInitialized = false) :
    (initClients env st).calls ≠ [] := by
  cases henv : env.indexList with
  | error e => simp [initClients, h, henv]
  | ok names =>
    by_cases hn : indexName env ∈ names
    · simp [initClients, h, henv, hn]
    · cases hcr : env.createIndexResult <;>
        simp [initClients, h, henv, hn, hcr]

lemma handler_headers_eq (env : Env) (st : ClientState) (req : Request) :
    (handler env st req).headers = setCorsHeaders env req.origin := by
  simp only [handler]
  split <;> rfl

lemma setCorsHeaders_credentials (env : Env) (origin : Option String) :
    (setCorsHeaders env origin).allowCredentials = "true" := rfl

/-- C7: when collection listing fails, or the collection is absent and
its creation fails, `initClients` rethrows that error, leaves the
initialization-complete flag unset, and a subsequent `initClients` call
performs provider calls again instead of being permanently poisoned. -/
theorem init_failure_not_poisoning (env : Env) (st : ClientState) (e : String)
    (hflag : st.pineconeInitialized = false)
    (hfail : env.indexList = .error e ∨
      ∃ names, env.indexList = .ok names ∧
        indexName env ∉ names ∧
        env.createIndexResult = .error e) :
    (initClients env st).res = .error e ∧
    (initClients env st).state.pineconeInitialized = false ∧
    ∀ env2 : Env, (initClients env2 (initClients env st).state).calls ≠ [] := by
  have key : (initClients env st).res = .error e ∧
      (initClients env st).state.pineconeInitialized = false := by
    rcases hfail with he | ⟨names, hn, hc, hcr⟩
    · constructor <;> simp [initClients, hflag, he]
    · constructor <;> simp [initClients, hflag, hn, hc, hcr]
  exact ⟨key.1, key.2, fun env2 => initClients_calls_ne_nil env2 _ key.2⟩

/-- C7 witness: a concrete failing listing leaves the flag unset and
the retry makes calls. -/
theorem init_failure_not_poisoning_witness :
    (initClients envInitFail freshState).res = .error "pinecone down" ∧
    (initClients envInitFail freshState).state.pineconeInitialized = false ∧
    ∀ env2 : Env, (initClients env2 (initClients envInitFail freshState).state).calls ≠ [] :=
  init_failure_not_poisoning envInitFail freshState "pinecone down" rfl (Or.inl rfl)

/-- C8: every OPTIONS request, on any path, answers 200 with an empty
body, makes no provider call, leaves the client state untouched, and
carries the cross-origin headers. -/
theorem options_preflight_short_circuit (env : Env) (st : ClientState) (req : Request)
    (h : req.method = "OPTIONS") :
    (handler env st req).resp = { status := 200, body := .empty } ∧
    (handler env st req).calls = [] ∧
    (handler env st req).state = st ∧
    (handler env st req).headers = setCorsHeaders env req.origin ∧
    (handler env st req).headers.allowCredentials = "true" := by
  refine ⟨?_, ?_, ?_, handler_headers_eq env st req, ?_⟩
  · simp [handler, h]
  · simp [handler, h]
  · simp [handler, h]
  · rw [handler_headers_eq env st req]; rfl

/-- C8 witness: an OPTIONS request to the ask path. -/
theorem options_preflight_short_circuit_witness :
    (handler envFound freshState
        { method := "OPTIONS", url := "/api/ask", origin := some "http://localhost:3000",
          text := none, chunkId := none, question := .undef, documentID := .undef }).resp =
      { status := 200, body := .empty } ∧
    (handler envFound freshState
        { method := "OPTIONS", url := "/api/ask", origin := some "http://localhost:3000",
          text := none, chunkId := none, question := .undef, documentID := .undef }).calls = [] ∧
    (handler envFound freshState
        { method := "OPTIONS", url := "/api/ask", origin := some "http://localhost:3000",
          text := none, chunkId := none, question := .undef, documentID := .undef }).state = freshState ∧
    (handler envFound freshState
        { method := "OPTIONS", url := "/api/ask", origin := some "http://localhost:3000",
          text := none, chunkId := none, question := .undef, documentID := .undef }).headers =
      setCorsHeaders envFound (some "http://localhost:3000") ∧
    (handler envFound freshState
        { method := "OPTIONS", url := "/api/ask", origin := some "http://localhost:3000",
          text := none, chunkId := none, question := .undef, documentID := .undef }).headers.allowCredentials = "true" :=
  options_preflight_short_circuit envFound freshState _ rfl

/-- C9: the router sends the normalized paths `/` and `/health` to the
health handler with no method check, so every non-OPTIONS method gets
200 with `status: ok` and no provider call. -/
theorem health_path_ignores_method (env : Env) (st : ClientState) (req : Request)
    (hm : req.method ≠ "OPTIONS")
    (hp : normalizePath req.url = "/" ∨ normalizePath req.url = "/health") :
    (handler env st req).resp = { status := 200, body := .health } ∧
    (handler env st req).calls = [] ∧
    (handler env st req).state = st := by
  simp only [handler]
  rw [if_neg hm, if_pos hp]
  exact ⟨rfl, rfl, rfl⟩

/-- C9 witness: a DELETE request to `/api/health` still answers 200
with the health body. -/
theorem health_path_ignores_method_witness :
    (handler envFound freshState
        { method := "DELETE", url := "/api/health", origin := none,
          text := none, chunkId := none, question := .undef, documentID := .undef }).resp =
      { status := 200, body := .health } ∧
    (handler envFound freshState
        { method := "DELETE", url := "/api/health", origin := none,
          text := none, chunkId := none, question := .undef, documentID := .undef }).calls = [] ∧
    (handler envFound freshState
        { method := "DELETE", url := "/api/health", origin := none,
          text := none, chunkId := none, question := .undef, documentID := .undef }).state = freshState :=
  health_path_ignores_method envFound freshState _ (by decide) (Or.inr (by decide))

/-- C10: origin matching is by substring containment, so any Origin
header containing `localhost` or `127.0.0.1` anywhere is echoed back in
Access-Control-Allow-Origin with credentials allowed. -/
theorem cors_echoes_origin_on_substring_match (env : Env) (st : ClientState)
    (req : Request) (o : String)
    (ho : req.origin = some o)
    (hinc : jsIncludes o "localhost" = true ∨ jsIncludes o "127.0.0.1" = true) :
    (handler env st req).headers.allowOrigin = o ∧
    (handler env st req).headers.allowCredentials = "true" := by
  have hne : (o != "") = true := by
    rcases hinc with h | h <;>
      · by_cases ho' : o = ""
        · subst ho'; exact absurd h (by decide)
        · simpa using ho'
  rw [handler_headers_eq env st req, ho]
  constructor
  · rcases hinc with h | h <;> simp [setCorsHeaders, h, hne]
  · rfl

/-- C10 witness: a third-party origin merely containing `localhost` is
echoed with credentials allowed. -/
theorem cors_echoes_origin_on_substring_match_witness :
    (handler envFound freshState
        { method := "GET", url := "/api/health", origin := some "https://evil-localhost.example.com",
          text := none, chunkId := none, question := .undef, documentID := .undef }).headers.allowOrigin =
      "https://evil-localhost.example.com" ∧
    (handler envFound freshState
        { method := "GET", url := "/api/health", origin := some "https://evil-localhost.example.com",
          text := none, chunkId := none, question := .undef, documentID := .undef }).headers.allowCredentials = "true" :=
  cors_echoes_origin_on_substring_match envFound freshState _ _ rfl (Or.inl (by decide))

lemma handleEmbeddings_success (env : Env) (st : ClientState) (s : String)
    (chunkId : Option String) (values : List Rat)
    (hinit : (initClients env st).res = .ok ())
    (hs : s ≠ "")
    (hembed : env.embedResult s = .ok values)
    (hupsert : env.upsertResult = .ok ()) :
    handleEmbeddings env st (some s) chunkId =
      mkHR 201
        (.embedSuccess (ingestId chunkId env.now)
          (if s.length > 100 then jsSubstring s 100 ++ "..." else s))
        (initClients env st).state
        ((initClients env st).calls ++
          [.embed "text-embedding-3-small" s,
            .upsert (ingestId chunkId env.now) values s]) := by
  simp only [handleEmbeddings, hinit, hembed, hupsert, if_neg hs]

/-- C6: on a successful ingestion the returned preview is the input
text itself when it has at most 100 characters, and the first 100
characters followed by the `...` marker otherwise. -/
theorem ingest_preview_truncation (env : Env) (st : ClientState) (s : String)
    (chunkId : Option String) (values : List Rat)
    (hinit : (initClients env st).res = .ok ())
    (hs : s ≠ "")
    (hembed : env.embedResult s = .ok values)
    (hupsert : env.upsertResult = .ok ()) :
    (handleEmbeddings env st (some s) chunkId).resp.status = 201 ∧
    (s.length ≤ 100 →
      ∃ i, (handleEmbeddings env st (some s) chunkId).resp.body = .embedSuccess i s) ∧
    (100 < s.length →
      ∃ i, (handleEmbeddings env st (some s) chunkId).resp.body =
        .embedSuccess i (jsSubstring s 100 ++ "...")) := by
  rw [handleEmbeddings_success env st s chunkId values hinit hs hembed hupsert]
  refine ⟨rfl, ?_, ?_⟩
  · intro h
    refine ⟨ingestId chunkId env.now, ?_⟩
    simp only [mkHR]
    rw [if_neg (by omega)]
  · intro h
    refine ⟨ingestId chunkId env.now, ?_⟩
    simp only [mkHR]
    rw [if_pos h]

/-- C6 witness: a short text is echoed unchanged in the preview. -/
theorem ingest_preview_truncation_witness :
    (handleEmbeddings envFound freshState (some "hello") (some "doc1")).resp.status = 201 ∧
    (("hello" : String).length ≤ 100 →
      ∃ i, (handleEmbeddings envFound freshState (some "hello") (some "doc1")).resp.body =
        .embedSuccess i "hello") ∧
    (100 < ("hello" : String).length →
      ∃ i, (handleEmbeddings envFound freshState (some "hello") (some "doc1")).resp.body =
        .embedSuccess i (jsSubstring "hello" 100 ++ "...")) :=
  ingest_preview_truncation envFound freshState "hello" (some "doc1") [mkRat 1 1]
    rfl (by decide) rfl rfl

/-- C5 counterexample: an ingestion that provides `chunkId` as the
empty string succeeds, yet the returned id is the clock-derived token,
not the provided `chunkId`. -/
theorem ingest_empty_chunkid_cex :
    (handleEmbeddings envFound freshState (some "hello") (some "")).resp.status = 201 ∧
    (handleEmbeddings envFound freshState (some "hello") (some "")).resp.body =
      .embedSuccess "1700000000000" "hello" ∧
    ("1700000000000" : String) ≠ "" := by
  decide

/-- C5 (amended): on a successful ingestion the returned id equals
`chunkId` whenever a non-empty `chunkId` is provided; when `chunkId` is
absent or empty (falsy), the id is the decimal string of the current
clock value. -/
theorem ingest_id_choice (env : Env) (st : ClientState) (s : String)
    (chunkId : Option String) (values : List Rat)
    (hinit : (initClients env st).res = .ok ())
    (hs : s ≠ "")
    (hembed : env.embedResult s = .ok values)
    (hupsert : env.upsertResult = .ok ()) :
    (∀ c, chunkId = some c → c ≠ "" →
      ∃ t, (handleEmbeddings env st (some s) chunkId).resp.body = .embedSuccess c t) ∧
    (chunkId = none ∨ chunkId = some "" →
      ∃ t, (handleEmbeddings env st (some s) chunkId).resp.body =
        .embedSuccess (toString env.now) t) := by
  rw [handleEmbeddings_success env st s chunkId values hinit hs hembed hupsert]
  constructor
  · rintro c rfl hc
    refine ⟨if s.length > 100 then jsSubstring s 100 ++ "..." else s, ?_⟩
    simp only [mkHR, ingestId]
    rw [if_neg hc]
  · rintro (rfl | rfl)
    · exact ⟨if s.length > 100 then jsSubstring s 100 ++ "..." else s, rfl⟩
    · refine ⟨if s.length > 100 then jsSubstring s 100 ++ "..." else s, ?_⟩
      simp [mkHR, ingestId]

/-- C5 witness: a provided non-empty `chunkId` is echoed as the id, and
the falsy cases produce the clock-derived id. -/
theorem ingest_id_choice_witness :
    (∀ c, (some "doc1" : Option String) = some c → c ≠ "" →
      ∃ t, (handleEmbeddings envFound freshState (some "hello") (some "doc1")).resp.body =
        .embedSuccess c t) ∧
    ((some "doc1" : Option String) = none ∨ (some "doc1" : Option String) = some "" →
      ∃ t, (handleEmbeddings envFound freshState (some "hello") (some "doc1")).resp.body =
        .embedSuccess (toString envFound.now) t) :=
  ingest_id_choice envFound freshState "hello" (some "doc1") [mkRat 1 1]
    rfl (by decide) rfl rfl

/-- C1 counterexample: on a first request with missing `text`, the
handler does answer 400, but a provider call (the collection listing of
client initialization) has already been made before that return, so
validation does not precede every provider call. -/
theorem provider_call_before_validation_cex :
    (handleEmbeddings envFound freshState none none).resp.status = 400 ∧
    (handleEmbeddings envFound freshState none none).calls = [ProviderCall.listIndexes] ∧
    (handleEmbeddings envFound freshState none none).calls ≠ [] := by
  decide

/-- C1 (amended): when client initialization succeeds, a missing or
empty `text` on the ingestion operation, and a falsy or non-string
`question` or falsy `documentID` on the answer operation, produce a 400
response whose run contains no provider calls other than the
collection listing and creation of client initialization, which runs
before validation. -/
theorem validation_rejects_with_only_init_calls (env : Env) (st : ClientState)
    (text chunkId : Option String) (question documentID : JVal)
    (hinit : (initClients env st).res = .ok ()) :
    (truthyOptStr text = false →
      (handleEmbeddings env st text chunkId).resp.status = 400 ∧
      ∀ c ∈ (handleEmbeddings env st text chunkId).calls, c.isInitCall = true) ∧
    (question.truthy = false ∨ question.isString = false ∨ documentID.truthy = false →
      (handleAsk env st question documentID).resp.status = 400 ∧
      ∀ c ∈ (handleAsk env st question documentID).calls, c.isInitCall = true) := by
  constructor
  · intro ht
    have hE : handleEmbeddings env st text chunkId =
        mkHR 400 (.errorMsg "Text content is required")
          (initClients env st).state (initClients env st).calls := by
      cases text with
      | none => simp [handleEmbeddings, hinit]
      | some s =>
        have hs : s = "" := by simpa [truthyOptStr] using ht
        subst hs
        simp [handleEmbeddings, hinit]
    rw [hE]
    exact ⟨rfl, initClients_calls_are_init env st⟩
  · intro hq
    by_cases h1 : (!question.truthy || !question.isString) = true
    · have hA : handleAsk env st question documentID =
          mkHR 400 (.errorMsg "Valid question string is required")
            (initClients env st).state (initClients env st).calls := by
        simp [handleAsk, hinit, h1]
      rw [hA]
      exact ⟨rfl, initClients_calls_are_init env st⟩
    · rw [Bool.not_eq_true] at h1
      have hdt : documentID.truthy = false := by
        rcases hq with h | h | h
        · exfalso; rw [h] at h1; simp at h1
        · exfalso; rw [h] at h1; simp at h1
        · exact h
      have hA : handleAsk env st question documentID =
          mkHR 400 (.errorMsg "Document ID is required")
            (initClients env st).state (initClients env st).calls := by
        simp [handleAsk, hinit, h1, hdt]
      rw [hA]
      exact ⟨rfl, initClients_calls_are_init env st⟩

/-- C1 witness: first request, missing text and undefined question and
document id. -/
theorem validation_rejects_with_only_init_calls_witness :
    (truthyOptStr none = false →
      (handleEmbeddings envFound freshState none none).resp.status = 400 ∧
      ∀ c ∈ (handleEmbeddings envFound freshState none none).calls, c.isInitCall = true) ∧
    (JVal.undef.truthy = false ∨ JVal.undef.isString = false ∨ JVal.undef.truthy = false →
      (handleAsk envFound freshState .undef .undef).resp.status = 400 ∧
      ∀ c ∈ (handleAsk envFound freshState .undef .undef).calls, c.isInitCall = true) :=
  validation_rejects_with_only_init_calls envFound freshState none none .undef .undef rfl

lemma JVal.truthy_jstr (s : String) : (JVal.jstr s).truthy = (s != "") := rfl

lemma JVal.isString_jstr (s : String) : (JVal.jstr s).isString = true := rfl

lemma JVal.asString_jstr (s : String) : (JVal.jstr s).asString = s := rfl

lemma handleAsk_nomatch (env : Env) (st : ClientState) (q : String)
    (documentID : JVal) (values : List Rat)
    (hq : q ≠ "") (hd : documentID.truthy = true)
    (hinit : (initClients env st).res = .ok ())
    (hembed : env.embedResult q = .ok values)
    (hquery : env.queryResult = .ok []) :
    handleAsk env st (.jstr q) documentID =
      mkHR 404 (.notFound q) (initClients env st).state
        ((initClients env st).calls ++ [.embed "text-embedding-3-small" q, .query 5 true]) := by
  simp [handleAsk, hinit, hembed, hquery, hq, hd,
    JVal.truthy_jstr, JVal.isString_jstr, JVal.asString_jstr]

lemma handleAsk_exact (env : Env) (st : ClientState) (q : String)
    (documentID : JVal) (values : List Rat)
    (best : SimMatch) (rest : List SimMatch) (ex : SimMatch) (a : String)
    (hq : q ≠ "") (hd : documentID.truthy = true)
    (hinit : (initClients env st).res = .ok ())
    (hembed : env.embedResult q = .ok values)
    (hquery : env.queryResult = .ok (best :: rest))
    (hfind : (best :: rest).find? (fun m => decide (JVal.jstr m.id = documentID)) = some ex)
    (hchat : env.chatResult (strictSystem ex.metadata.text) q = .ok a) :
    handleAsk env st (.jstr q) documentID =
      mkHR 200 (.askSuccess q a) (initClients env st).state
        ((initClients env st).calls ++ [.embed "text-embedding-3-small" q, .query 5 true] ++
          [.chat (chatModel env) (strictSystem ex.metadata.text) q (mkRat 7 10) 500]) := by
  simp [handleAsk, hinit, hembed, hquery, hfind, hchat, hq, hd,
    JVal.truthy_jstr, JVal.isString_jstr, JVal.asString_jstr]

lemma handleAsk_best (env : Env) (st : ClientState) (q : String)
    (documentID : JVal) (values : List Rat)
    (best : SimMatch) (rest : List SimMatch) (a : String)
    (hq : q ≠ "") (hd : documentID.truthy = true)
    (hinit : (initClients env st).res = .ok ())
    (hembed : env.embedResult q = .ok values)
    (hquery : env.queryResult = .ok (best :: rest))
    (hfind : (best :: rest).find? (fun m => decide (JVal.jstr m.id = documentID)) = none)
    (hscore : best.score ≥ mkRat 1 2)
    (hchat : env.chatResult (lenientSystem best.metadata.text) q = .ok a) :
    handleAsk env st (.jstr q) documentID =
      mkHR 200 (.askSuccess q a) (initClients env st).state
        ((initClients env st).calls ++ [.embed "text-embedding-3-small" q, .query 5 true] ++
          [.chat (chatModel env) (lenientSystem best.metadata.text) q (mkRat 7 10) 500]) := by
  simp [handleAsk, hinit, hembed, hquery, hfind, hscore, hchat, hq, hd,
    JVal.truthy_jstr, JVal.isString_jstr, JVal.asString_jstr]

lemma handleAsk_lowscore (env : Env) (st : ClientState) (q : String)
    (documentID : JVal) (values : List Rat)
    (best : SimMatch) (rest : List SimMatch)
    (hq : q ≠ "") (hd : documentID.truthy = true)
    (hinit : (initClients env st).res = .ok ())
    (hembed : env.embedResult q = .ok values)
    (hquery : env.queryResult = .ok (best :: rest))
    (hfind : (best :: rest).find? (fun m => decide (JVal.jstr m.id = documentID)) = none)
    (hscore : best.score < mkRat 1 2) :
    handleAsk env st (.jstr q) documentID =
      mkHR 404 (.notFound q) (initClients env st).state
        ((initClients env st).calls ++ [.embed "text-embedding-3-small" q, .query 5 true]) := by
  have hnotge : ¬ best.score ≥ mkRat 1 2 := not_le.mpr hscore
  simp [handleAsk, hinit, hembed, hquery, hfind, hnotge, hq, hd,
    JVal.truthy_jstr, JVal.isString_jstr, JVal.asString_jstr]

/-- C2: when validation passes and every provider call succeeds, the
404 NotFound response carrying the original question is produced
exactly when the search returned zero matches, or no match carries the
requested document id and the top match scores below one half; in
every other case a 200 language-model answer is returned. -/
theorem ask_notfound_characterization (env : Env) (st : ClientState) (q : String)
    (documentID : JVal) (values : List Rat) (qms : List SimMatch)
    (hq : q ≠ "") (hd : documentID.truthy = true)
    (hinit : (initClients env st).res = .ok ())
    (hembed : env.embedResult q = .ok values)
    (hquery : env.queryResult = .ok qms)
    (hchat : ∀ sys u, ∃ a, env.chatResult sys u = .ok a) :
    ((handleAsk env st (.jstr q) documentID).resp =
        { status := 404, body := .notFound q } ↔ notFoundCond qms documentID) ∧
    (¬ notFoundCond qms documentID →
      ∃ a, (handleAsk env st (.jstr q) documentID).resp =
        { status := 200, body := .askSuccess q a }) := by
  cases qms with
  | nil =>
    rw [handleAsk_nomatch env st q documentID values hq hd hinit hembed hquery]
    exact ⟨⟨fun _ => Or.inl rfl, fun _ => rfl⟩,
      fun hn => absurd (Or.inl rfl) hn⟩
  | cons best rest =>
    cases hfind : (best :: rest).find? (fun m => decide (JVal.jstr m.id = documentID)) with
    | some ex =>
      obtain ⟨a, ha⟩ := hchat (strictSystem ex.metadata.text) q
      rw [handleAsk_exact env st q documentID values best rest ex a hq hd hinit hembed hquery hfind ha]
      have hexmem : JVal.jstr ex.id = documentID := by
        have h1 := List.find?_some hfind
        simpa using h1
      have hcond : ¬ notFoundCond (best :: rest) documentID := by
        rintro (h | ⟨hall, _⟩)
        · simp at h
        · exact hall ex (List.mem_of_find?_eq_some hfind) hexmem
      refine ⟨⟨fun habs => ?_, fun hc => absurd hc hcond⟩, fun _ => ⟨a, rfl⟩⟩
      exfalso
      simp [mkHR] at habs
    | none =>
      have hall : ∀ m ∈ best :: rest, JVal.jstr m.id ≠ documentID := by
        intro m hm
        have h2 := List.find?_eq_none.mp hfind m hm
        simpa using h2
      by_cases hsc : best.score ≥ mkRat 1 2
      · obtain ⟨a, ha⟩ := hchat (lenientSystem best.metadata.text) q
        rw [handleAsk_best env st q documentID values best rest a hq hd hinit hembed hquery hfind hsc ha]
        have hcond : ¬ notFoundCond (best :: rest) documentID := by
          rintro (h | ⟨hall2, b2, r2, heq, hlt⟩)
          · simp at h
          · injection heq with h1 h2
            subst h1
            exact absurd hsc (not_le.mpr hlt)
        refine ⟨⟨fun habs => ?_, fun hc => absurd hc hcond⟩, fun _ => ⟨a, rfl⟩⟩
        exfalso
        simp [mkHR] at habs
      · have hlt : best.score < mkRat 1 2 := lt_of_not_ge hsc
        rw [handleAsk_lowscore env st q documentID values best rest hq hd hinit hembed hquery hfind hlt]
        have hcond : notFoundCond (best :: rest) documentID :=
          Or.inr ⟨hall, best, rest, rfl, hlt⟩
        exact ⟨⟨fun _ => hcond, fun _ => rfl⟩, fun hn => absurd hcond hn⟩

/-- C2 witness: a search whose only match has a foreign id and score
0.3 hits the NotFound branch of the characterization. -/
theorem ask_notfound_characterization_witness :
    ((handleAsk envLowScore freshState (.jstr "Q") (.jstr "doc1")).resp =
        { status := 404, body := .notFound "Q" } ↔
      notFoundCond [{ id := "other", score := mkRat 3 10, metadata := { text := "Paris is in France." } }] (.jstr "doc1")) ∧
    (¬ notFoundCond [{ id := "other", score := mkRat 3 10, metadata := { text := "Paris is in France." } }] (.jstr "doc1") →
      ∃ a, (handleAsk envLowScore freshState (.jstr "Q") (.jstr "doc1")).resp =
        { status := 200, body := .askSuccess "Q" a }) :=
  ask_notfound_characterization envLowScore freshState "Q" (.jstr "doc1") [mkRat 1 1]
    [{ id := "other", score := mkRat 3 10, metadata := { text := "Paris is in France." } }]
    (by decide) rfl rfl rfl rfl (fun sys u => ⟨"Blue.", rfl⟩)

/-- C3: when some returned match carries the requested document id, the
language model is invoked with the strict variant whose context is that
match's stored text, the system message literally contains the fixed
refusal sentence, and the response is a 200 with the question and the
model output. -/
theorem ask_exact_match_strict_prompt (env : Env) (st : ClientState) (q : String)
    (documentID : JVal) (values : List Rat)
    (best : SimMatch) (rest : List SimMatch) (ex : SimMatch) (a : String)
    (hq : q ≠ "") (hd : documentID.truthy = true)
    (hinit : (initClients env st).res = .ok ())
    (hembed : env.embedResult q = .ok values)
    (hquery : env.queryResult = .ok (best :: rest))
    (hfind : (best :: rest).find? (fun m => decide (JVal.jstr m.id = documentID)) = some ex)
    (hchat : env.chatResult (strictSystem ex.metadata.text) q = .ok a) :
    (handleAsk env st (.jstr q) documentID).resp =
      { status := 200, body := .askSuccess q a } ∧
    (handleAsk env st (.jstr q) documentID).calls =
      (initClients env st).calls ++
        [.embed "text-embedding-3-small" q, .query 5 true,
          .chat (chatModel env) (strictSystem ex.metadata.text) q (mkRat 7 10) 500] ∧
    JVal.jstr ex.id = documentID ∧
    ∃ pre post, strictSystem ex.metadata.text = pre ++ (refusalSentence ++ post) := by
  rw [handleAsk_exact env st q documentID values best rest ex a hq hd hinit hembed hquery hfind hchat]
  have hexmem : JVal.jstr ex.id = documentID := by
    have h1 := List.find?_some hfind
    simpa using h1
  refine ⟨rfl, ?_, hexmem, strictPre, strictPost ++ ex.metadata.text, rfl⟩
  simp [mkHR, List.append_assoc]

/-- C3 witness: the stored chunk `doc1` is found by id and answered
through the strict prompt built over its text. -/
theorem ask_exact_match_strict_prompt_witness :
    (handleAsk envFound freshState (.jstr "Q") (.jstr "doc1")).resp =
      { status := 200, body := .askSuccess "Q" "Blue." } ∧
    (handleAsk envFound freshState (.jstr "Q") (.jstr "doc1")).calls =
      (initClients envFound freshState).calls ++
        [.embed "text-embedding-3-small" "Q", .query 5 true,
          .chat (chatModel envFound) (strictSystem "The sky is blue.") "Q" (mkRat 7 10) 500] ∧
    JVal.jstr "doc1" = JVal.jstr "doc1" ∧
    ∃ pre post, strictSystem "The sky is blue." = pre ++ (refusalSentence ++ post) :=
  ask_exact_match_strict_prompt envFound freshState "Q" (.jstr "doc1") [mkRat 1 1]
    { id := "doc1", score := mkRat 9 10, metadata := { text := "The sky is blue." } } []
    { id := "doc1", score := mkRat 9 10, metadata := { text := "The sky is blue." } } "Blue."
    (by decide) rfl rfl rfl rfl (by decide) rfl

/-- C4: when no returned match carries the requested document id and
the top match scores at least one half, the language model is invoked
with the lenient variant whose context is that top match's text, the
lenient template does not contain the refusal sentence, and the
response is a 200 with the question and the model output. -/
theorem ask_best_match_lenient_prompt (env : Env) (st : ClientState) (q : String)
    (documentID : JVal) (values : List Rat)
    (best : SimMatch) (rest : List SimMatch) (a : String)
    (hq : q ≠ "") (hd : documentID.truthy = true)
    (hinit : (initClients env st).res = .ok ())
    (hembed : env.embedResult q = .ok values)
    (hquery : env.queryResult = .ok (best :: rest))
    (hall : ∀ m ∈ best :: rest, JVal.jstr m.id ≠ documentID)
    (hscore : best.score ≥ mkRat 1 2)
    (hchat : env.chatResult (lenientSystem best.metadata.text) q = .ok a) :
    (handleAsk env st (.jstr q) documentID).resp =
      { status := 200, body := .askSuccess q a } ∧
    (handleAsk env st (.jstr q) documentID).calls =
      (initClients env st).calls ++
        [.embed "text-embedding-3-small" q, .query 5 true,
          .chat (chatModel env) (lenientSystem best.metadata.text) q (mkRat 7 10) 500] ∧
    lenientSystem best.metadata.text = lenientTemplate ++ best.metadata.text ∧
    jsIncludes lenientTemplate refusalSentence = false := by
  have hfind : (best :: rest).find? (fun m => decide (JVal.jstr m.id = documentID)) = none := by
    rw [List.find?_eq_none]
    intro m hm
    simpa using hall m hm
  rw [handleAsk_best env st q documentID values best rest a hq hd hinit hembed hquery hfind hscore hchat]
  refine ⟨rfl, ?_, rfl, by decide⟩
  simp [mkHR, List.append_assoc]

/-- C4 witness: a foreign-id match with score 0.9 is answered through
the lenient prompt built over its text. -/
theorem ask_best_match_lenient_prompt_witness :
    (handleAsk envBestMatch freshState (.jstr "Q") (.jstr "doc1")).resp =
      { status := 200, body := .askSuccess "Q" "Blue." } ∧
    (handleAsk envBestMatch freshState (.jstr "Q") (.jstr "doc1")).calls =
      (initClients envBestMatch freshState).calls ++
        [.embed "text-embedding-3-small" "Q", .query 5 true,
          .chat (chatModel envBestMatch) (lenientSystem "Paris is in France.") "Q" (mkRat 7 10) 500] ∧
    lenientSystem "Paris is in France." = lenientTemplate ++ "Paris is in France." ∧
    jsIncludes lenientTemplate refusalSentence = false :=
  ask_best_match_lenient_prompt envBestMatch freshState "Q" (.jstr "doc1") [mkRat 1 1]
    { id := "other", score := mkRat 9 10, metadata := { text := "Paris is in France." } } [] "Blue."
    (by decide) rfl rfl rfl rfl (by decide) (by decide) rfl
